import Mathlib

/-!
Shallow embedding of `jiffy_export.py` / `toggl_export.py` /
`convert_jiffy_toggl.py` (Jiffy → Toggl/Clockify time-tracking converters).

Python strings that the code parses character by character (timezone
descriptors, date bounds, durations) are modelled as `List Char`; machine
integers are `Int` with Python's floor division (`Int.fdiv`) and modulo
(`Int.fmod`).  Functions that can raise a Python exception return
`Except String _`.
-/

namespace Jiffy

/-- ASCII whitespace stripped by Python's `int(str)`. -/
def isPyWs (c : Char) : Bool :=
  c = ' ' ∨ c = '\t' ∨ c = '\n' ∨ c = '\r'

/-- Strip leading and trailing whitespace (as Python `int` does). -/
def pyStrip (cs : List Char) : List Char :=
  ((cs.dropWhile isPyWs).reverse.dropWhile isPyWs).reverse

/-- Numeric value of a list of ASCII digits (most significant first). -/
def digitsVal (cs : List Char) : Nat :=
  cs.foldl (fun a c => 10 * a + (c.toNat - 48)) 0

/-- All-ASCII-digit check. -/
def allDigits (cs : List Char) : Bool :=
  cs.all (fun c => c.isDigit)

/-- A nonempty run of ASCII digits, else `none`. -/
def natOfDigits (cs : List Char) : Option Nat :=
  if cs ≠ [] ∧ allDigits cs then some (digitsVal cs) else none

/-- Python `int(s)` on a decimal string literal: strip whitespace, optional
single sign, then a nonempty run of digits; anything else raises
(`none` here).  (Underscore separators and non-ASCII digits, which Python
also accepts, are not modelled; no input in this development uses them.) -/
def pyInt (cs : List Char) : Option Int :=
  match pyStrip cs with
  | '+' :: rest => (natOfDigits rest).map (fun n => (n : Int))
  | '-' :: rest => (natOfDigits rest).map (fun n => -(n : Int))
  | rest => (natOfDigits rest).map (fun n => (n : Int))

/-- Python `s.split(sep)` for a one-character separator: always returns at
least one (possibly empty) part. -/
def splitOnChar (sep : Char) : List Char → List (List Char)
  | [] => [[]]
  | c :: cs =>
    let r := splitOnChar sep cs
    if c = sep then [] :: r
    else
      match r with
      | [] => [[c]]
      | p :: ps => (c :: p) :: ps

/-- Civil (proleptic Gregorian) date from a count of days since 1970-01-01
(Hinnant's `civil_from_days`, used here to model CPython's calendar). -/
def civilFromDays (z0 : Int) : Int × Int × Int :=
  let z := z0 + 719468
  let era := z.fdiv 146097
  let doe := z - era * 146097
  let yoe := (doe - doe.fdiv 1460 + doe.fdiv 36524 - doe.fdiv 146096).fdiv 365
  let y := yoe + era * 400
  let doy := doe - (365 * yoe + yoe.fdiv 4 - yoe.fdiv 100)
  let mp := (5 * doy + 2).fdiv 153
  let d := doy - (153 * mp + 2).fdiv 5 + 1
  let m := mp + (if mp < 10 then 3 else -9)
  (y + (if m ≤ 2 then 1 else 0), m, d)

/-- The zone-naive calendar reading of a `datetime`: what remains after the
code's `.replace(tzinfo=None)`.  Sub-second microseconds are dropped because
no output channel of the program renders them. -/
structure CivilDT where
  year : Int
  month : Int
  day : Int
  hour : Int
  minute : Int
  second : Int
deriving DecidableEq, Repr

/-- A Python `datetime.date` value. -/
structure PyDate where
  year : Int
  month : Int
  day : Int
deriving DecidableEq, Repr

/-- `datetime.date` ordering is lexicographic on (year, month, day). -/
def dateLt (a b : PyDate) : Bool :=
  a.year < b.year ∨ (a.year = b.year ∧
    (a.month < b.month ∨ (a.month = b.month ∧ a.day < b.day)))

/-- `dt.date()`. -/
def CivilDT.date (c : CivilDT) : PyDate := ⟨c.year, c.month, c.day⟩

/-- Calendar reading, in UTC, of an epoch-milliseconds instant: models
`datetime.fromtimestamp(ms / 1000, tz=timezone.utc)` (whose displayed
calendar fields floor the fractional seconds). -/
def civilOfMs (ms : Int) : CivilDT :=
  let days := ms.fdiv 86400000
  let msOfDay := ms.fmod 86400000
  let s := msOfDay.fdiv 1000
  let ymd := civilFromDays days
  ⟨ymd.1, ymd.2.1, ymd.2.2, s.fdiv 3600, (s.fmod 3600).fdiv 60, s.fmod 60⟩

/-- Model of the host timezone database behind `zoneinfo.ZoneInfo`: a zone
name either resolves to a function giving the zone's UTC offset in
milliseconds at a given instant (so DST rules are representable), or is
unknown (`ZoneInfo(name)` raises). -/
def TzDb := List Char → Option (Int → Int)

/-- The database in which no name resolves (every `ZoneInfo` lookup raises). -/
def emptyDb : TzDb := fun _ => none

/-- `jiffy_export.parse_jiffy_timestamp(timestamp_ms, tz_name)`.

Mirrors the source: a `tz_name` starting with `'GMT'` and a nonempty
remainder goes through manual sign/hours/minutes parsing (where a malformed
remainder makes `int()` raise `ValueError`, uncaught); otherwise the name is
resolved through the timezone database, falling back to the plain UTC
reading when the lookup raises. -/
def parse_jiffy_timestamp (db : TzDb) (timestamp_ms : Int) (tz_name : List Char) :
    Except String CivilDT :=
  if tz_name.take 3 = ['G', 'M', 'T'] then
    let offset_str := tz_name.drop 3
    if offset_str ≠ [] then
      let sign : Int := if offset_str.head? = some '+' then 1 else -1
      let parts := splitOnChar ':' (offset_str.drop 1)
      match pyInt (parts.headD []) with
      | none => .error "ValueError: invalid literal for int"
      | some hours =>
        match (if parts.length > 1 then pyInt (parts.getD 1 []) else some 0) with
        | none => .error "ValueError: invalid literal for int"
        | some minutes =>
          -- timedelta(hours=sign*hours, minutes=sign*minutes), added to dt_utc
          let offset := sign * hours * 3600000 + sign * minutes * 60000
          .ok (civilOfMs (timestamp_ms + offset))
    else
      match db tz_name with
      | some off => .ok (civilOfMs (timestamp_ms + off timestamp_ms))
      | none => .ok (civilOfMs timestamp_ms)
  else
    match db tz_name with
    | some off => .ok (civilOfMs (timestamp_ms + off timestamp_ms))
    | none => .ok (civilOfMs timestamp_ms)

/-- `jiffy_export.convert_to_output_timezone(timestamp_ms, input_tz_name,
output_tz_name)`.  The body performs the same branch as
`parse_jiffy_timestamp` but on `output_tz_name`; `input_tz_name` is accepted
and never used, exactly as in the source. -/
def convert_to_output_timezone (db : TzDb) (timestamp_ms : Int)
    (input_tz_name output_tz_name : List Char) : Except String CivilDT :=
  let _ := input_tz_name
  if output_tz_name.take 3 = ['G', 'M', 'T'] then
    let offset_str := output_tz_name.drop 3
    if offset_str ≠ [] then
      let sign : Int := if offset_str.head? = some '+' then 1 else -1
      let parts := splitOnChar ':' (offset_str.drop 1)
      match pyInt (parts.headD []) with
      | none => .error "ValueError: invalid literal for int"
      | some hours =>
        match (if parts.length > 1 then pyInt (parts.getD 1 []) else some 0) with
        | none => .error "ValueError: invalid literal for int"
        | some minutes =>
          let offset := sign * hours * 3600000 + sign * minutes * 60000
          .ok (civilOfMs (timestamp_ms + offset))
    else
      match db output_tz_name with
      | some off => .ok (civilOfMs (timestamp_ms + off timestamp_ms))
      | none => .ok (civilOfMs timestamp_ms)
  else
    match db output_tz_name with
    | some off => .ok (civilOfMs (timestamp_ms + off timestamp_ms))
    | none => .ok (civilOfMs timestamp_ms)

/-- Zero-pad the decimal rendering of a nonnegative value to two digits
(Python's `{:02d}`). -/
def pad2 (n : Int) : String :=
  if 0 ≤ n ∧ n < 10 then "0" ++ toString n else toString n

/-- `jiffy_export.format_duration(start_ms, stop_ms)`: `HH:MM:SS` with
unbounded hours.  The source computes on the float
`(stop_ms - start_ms) / 1000` with `//` and `%`; for deltas in the
float-exact range those operations coincide with the integer floor
divisions used here. -/
def format_duration (start_ms stop_ms : Int) : String :=
  let delta := stop_ms - start_ms
  let hours := delta.fdiv 3600000
  let minutes := (delta.fmod 3600000).fdiv 60000
  let seconds := (delta.fmod 60000).fdiv 1000
  toString hours ++ ":" ++ pad2 minutes ++ ":" ++ pad2 seconds

/-- Round `num / den` (with `den > 0`) to the nearest integer, ties to even:
the rounding Python's `format(x, '.2f')` applies. -/
def roundHalfEven (num den : Int) : Int :=
  let q := num.fdiv den
  let r := num.fmod den
  if 2 * r < den then q
  else if 2 * r > den then q + 1
  else if q.fmod 2 = 0 then q else q + 1

/-- `jiffy_export.format_duration_hours(start_ms, stop_ms)`: decimal hours
with two fraction digits (`f"{hours:.2f}"`), defined — per its docstring —
for the Clockify `Duration (h)` column.  Rounding is modelled exactly on
the rational `delta / 3600000` (the binary-float representation can differ
from this only at half-ulp ties, which no input in this development hits). -/
def format_duration_hours (start_ms stop_ms : Int) : String :=
  let cents := roundHalfEven ((stop_ms - start_ms) * 100) 3600000
  let sign := if cents < 0 then "-" else ""
  let a := cents.natAbs
  sign ++ toString (a / 100) ++ "." ++ pad2 ((a % 100 : Nat) : Int)

/-- A record of `time_owners`: only the fields the converters read are
modelled (`status`, present in the data, is never read by them).  `id` is
accessed with mandatory indexing in the source, `name` and `parent_id`
through `.get`. -/
structure Owner where
  id : String
  name : Option String
  parent_id : Option String
deriving DecidableEq, Repr

/-- `jiffy_export.get_owner_name(owner_id, time_owners)`: first owner whose
`id` matches, defaulting the name — and a missing owner — to `"Unknown"`. -/
def get_owner_name (owner_id : String) : List Owner → String
  | [] => "Unknown"
  | o :: os =>
    if o.id = owner_id then o.name.getD "Unknown"
    else get_owner_name owner_id os

/-- Inner loop of `get_parent_owner_name`: find the parent's name,
defaulting to `""`. -/
def findParentName (parent_id : String) : List Owner → String
  | [] => ""
  | o :: os =>
    if o.id = parent_id then o.name.getD ""
    else findParentName parent_id os

/-- Outer loop of `get_parent_owner_name`: `full` is the whole
`time_owners` list, over which the inner parent search runs. -/
def parentNameLoop (owner_id : String) (full : List Owner) : List Owner → String
  | [] => ""
  | o :: os =>
    if o.id = owner_id then
      match o.parent_id with
      | some p => if p ≠ "" then findParentName p full else ""
      | none => ""
    else parentNameLoop owner_id full os

/-- `jiffy_export.get_parent_owner_name(owner_id, time_owners)`: resolve the
first owner whose `id` matches, then — when its `parent_id` is truthy
(present and nonempty) — look the parent up by id over the whole owner
list; every missing link yields `""`. -/
def get_parent_owner_name (owner_id : String) (time_owners : List Owner) : String :=
  parentNameLoop owner_id time_owners time_owners

/-- A record of `time_entries`: the fields the converters read.
`start_time`/`stop_time`/`owner_id`/timezone fields are accessed with
mandatory indexing in the source; `note` and `status` through `.get`. -/
structure TimeEntry where
  owner_id : String
  start_time : Int
  stop_time : Int
  start_time_zone : List Char
  stop_time_zone : List Char
  note : Option String
  status : Option String
deriving DecidableEq, Repr

/-- The parsed Jiffy JSON document: `data.get('time_entries', [])` and
`data.get('time_owners', [])`. -/
structure JiffyData where
  time_entries : List TimeEntry
  time_owners : List Owner
deriving Repr

/-- Days in a Gregorian month (CPython `datetime.date` validation). -/
def daysInMonth (y m : Int) : Int :=
  if m = 2 then
    if y.fmod 4 = 0 ∧ (y.fmod 100 ≠ 0 ∨ y.fmod 400 = 0) then 29 else 28
  else if m = 4 ∨ m = 6 ∨ m = 9 ∨ m = 11 then 30
  else 31

/-- `datetime.strptime(s, '%Y-%m-%d').date()`: three dash-separated digit
fields (`%Y` up to four digits, `%m`/`%d` up to two), then `date`
range-validates month and day; anything else raises `ValueError`. -/
def strptimeDate (cs : List Char) : Except String PyDate :=
  match splitOnChar '-' cs with
  | [ys, ms, ds] =>
    if ys ≠ [] ∧ allDigits ys ∧ ys.length ≤ 4 ∧
       ms ≠ [] ∧ allDigits ms ∧ ms.length ≤ 2 ∧
       ds ≠ [] ∧ allDigits ds ∧ ds.length ≤ 2 then
      let y : Int := digitsVal ys
      let m : Int := digitsVal ms
      let d : Int := digitsVal ds
      if 1 ≤ y ∧ 1 ≤ m ∧ m ≤ 12 ∧ 1 ≤ d ∧ d ≤ daysInMonth y m then
        .ok ⟨y, m, d⟩
      else .error "ValueError: time data does not match format"
    else .error "ValueError: time data does not match format"
  | _ => .error "ValueError: time data does not match format"

/-- Run a fallible keep-predicate over a list in order, keeping order and
propagating the first raised exception — the shape of the source's
`for entry in ...: ... filtered_entries.append(entry)` loops, whose body can
raise. -/
def filterE (p : α → Except String Bool) : List α → Except String (List α)
  | [] => .ok []
  | x :: xs => do
    let b ← p x
    let rest ← filterE p xs
    pure (if b then x :: rest else rest)

/-- Transform each element in order, propagating the first raised
exception — the shape of the source's per-entry `writer.writerow(row)`
loops. -/
def mapE (f : α → Except String β) : List α → Except String (List β)
  | [] => .ok []
  | x :: xs => do
    let y ← f x
    let ys ← mapE f xs
    pure (y :: ys)

/-- Per-entry decision of the date-range filter block shared by
`convert_to_toggl` and `convert_to_clockify` (lines 143–158 and 217–232 of
`jiffy_export.py`): the compared date comes from `parse_jiffy_timestamp`
applied to the entry's own `start_time_zone`. -/
def jiffyDateKeep (db : TzDb) (start_date end_date : Option PyDate)
    (e : TimeEntry) : Except String Bool := do
  let entry_dt ← parse_jiffy_timestamp db e.start_time e.start_time_zone
  let entry_date := entry_dt.date
  match start_date with
  | some s => if dateLt entry_date s then pure false else
    match end_date with
    | some t => pure (!dateLt t entry_date)
    | none => pure true
  | none =>
    match end_date with
    | some t => pure (!dateLt t entry_date)
    | none => pure true

/-- Stable insertion of `x` into `l`, placing `x` before the first element
whose key is ≥ its own. -/
def insertByStart (x : TimeEntry) : List TimeEntry → List TimeEntry
  | [] => [x]
  | y :: ys =>
    if x.start_time ≤ y.start_time then x :: y :: ys
    else y :: insertByStart x ys

/-- Stable sort ascending by `start_time`: models the source's
`active_entries.sort(key=lambda e: e['start_time'])` (Python's sort is
stable). -/
def sortByStart : List TimeEntry → List TimeEntry
  | [] => []
  | x :: xs => insertByStart x (sortByStart xs)

/-- Filter-and-parse stage shared verbatim by `convert_to_toggl` and
`convert_to_clockify`: keep `ACTIVE` entries, then — when a bound is given —
parse the bounds (raising on malformed bounds) and run the date filter.
This is everything those functions do before the pre-write sort. -/
def jiffyKept (db : TzDb) (from_date to_date : Option (List Char))
    (data : JiffyData) : Except String (List TimeEntry) := do
  let active_entries := data.time_entries.filter (fun e => e.status == some "ACTIVE")
  if from_date.isSome ∨ to_date.isSome then
    let start_date ← match from_date with
      | some s => (strptimeDate s).map some
      | none => pure none
    let end_date ← match to_date with
      | some s => (strptimeDate s).map some
      | none => pure none
    filterE (jiffyDateKeep db start_date end_date) active_entries
  else
    pure active_entries

/-- The ordered entry sequence each Jiffy converter writes rows for:
the kept entries, sorted ascending by raw `start_time`. -/
def jiffySelect (db : TzDb) (from_date to_date : Option (List Char))
    (data : JiffyData) : Except String (List TimeEntry) :=
  (jiffyKept db from_date to_date data).map sortByStart

/-- `strftime('%Y-%m-%d')`.  (`%Y` is rendered four-padded; for the years
1–9999 admitted by `datetime` this differs from glibc only below year
1000, which no input in this development reaches.) -/
def pad4 (n : Int) : String :=
  if n < 10 then "000" ++ toString n
  else if n < 100 then "00" ++ toString n
  else if n < 1000 then "0" ++ toString n
  else toString n

def fmtYMD (c : CivilDT) : String :=
  pad4 c.year ++ "-" ++ pad2 c.month ++ "-" ++ pad2 c.day

/-- `strftime('%H:%M:%S')`. -/
def fmtHMS (c : CivilDT) : String :=
  pad2 c.hour ++ ":" ++ pad2 c.minute ++ ":" ++ pad2 c.second

/-- `strftime('%m/%d/%Y')`. -/
def fmtMDY (c : CivilDT) : String :=
  pad2 c.month ++ "/" ++ pad2 c.day ++ "/" ++ pad4 c.year

/-- `strftime('%-I:%M %p')`: 12-hour clock without padding, AM/PM. -/
def fmtTime12 (c : CivilDT) : String :=
  let h12 := if c.hour.fmod 12 = 0 then 12 else c.hour.fmod 12
  let ap := if c.hour < 12 then "AM" else "PM"
  toString h12 ++ ":" ++ pad2 c.minute ++ " " ++ ap

/-- One Toggl CSV data row (`fieldnames` of `convert_to_toggl`). -/
structure TogglRow where
  description : String
  billable : String
  duration : String
  email : String
  project : String
  startDate : String
  startTime : String
deriving DecidableEq, Repr

/-- Row construction of `convert_to_toggl`'s write loop.  `stop_dt` is
computed (and can raise on a malformed stop zone) but never used, exactly
as in the source.  `description or ''` maps a falsy (empty) description to
the empty string. -/
def mkTogglRow (db : TzDb) (output_timezone : List Char) (email : String)
    (time_owners : List Owner) (e : TimeEntry) : Except String TogglRow := do
  let start_dt ← convert_to_output_timezone db e.start_time e.start_time_zone output_timezone
  let _stop_dt ← convert_to_output_timezone db e.stop_time e.stop_time_zone output_timezone
  let duration := format_duration e.start_time e.stop_time
  let project := get_owner_name e.owner_id time_owners
  let description := e.note.getD "-"
  pure { description := if description = "" then "" else description
         billable := "No"
         duration := duration
         email := email
         project := project
         startDate := fmtYMD start_dt
         startTime := fmtHMS start_dt }

/-- `jiffy_export.convert_to_toggl(data, output_file, email, from_date,
to_date, output_timezone)`, modelling the written CSV body as the list of
rows (the fixed header and the quoting policy are not modelled; console
output is ignored). -/
def convert_to_toggl (db : TzDb) (data : JiffyData) (email : String)
    (from_date to_date : Option (List Char)) (output_timezone : List Char) :
    Except String (List TogglRow) := do
  let es ← jiffySelect db from_date to_date data
  mapE (mkTogglRow db output_timezone email data.time_owners) es

/-- One Clockify CSV data row (`fieldnames` of `convert_to_clockify`). -/
structure ClockifyRow where
  project : String
  client : String
  description : String
  task : String
  email : String
  tags : String
  billable : String
  startDate : String
  startTime : String
  durationH : String
deriving DecidableEq, Repr

/-- Row construction of `jiffy_export.convert_to_clockify`'s write loop.
Note the `Duration (h)` field is filled from `format_duration`
(`HH:MM:SS`), not `format_duration_hours` — the source never calls the
latter. -/
def mkClockifyRow (db : TzDb) (output_timezone : List Char) (email : String)
    (time_owners : List Owner) (e : TimeEntry) : Except String ClockifyRow := do
  let start_dt ← convert_to_output_timezone db e.start_time e.start_time_zone output_timezone
  let _stop_dt ← convert_to_output_timezone db e.stop_time e.stop_time_zone output_timezone
  let duration := format_duration e.start_time e.stop_time
  let project := get_owner_name e.owner_id time_owners
  let client := get_parent_owner_name e.owner_id time_owners
  let description := e.note.getD ""
  pure { project := project
         client := client
         description := if description = "" then "" else description
         task := ""
         email := email
         tags := ""
         billable := "No"
         startDate := fmtMDY start_dt
         startTime := fmtTime12 start_dt
         durationH := duration }

/-- `jiffy_export.convert_to_clockify(data, output_file, email, from_date,
to_date, output_timezone)`, modelled as the list of written data rows. -/
def convert_to_clockify (db : TzDb) (data : JiffyData) (email : String)
    (from_date to_date : Option (List Char)) (output_timezone : List Char) :
    Except String (List ClockifyRow) := do
  let es ← jiffySelect db from_date to_date data
  mapE (mkClockifyRow db output_timezone email data.time_owners) es

end Jiffy

namespace TogglExport

open Jiffy

/-- `toggl_export.parse_toggl_duration(duration_str)`: split on `':'` and
read hours, minutes, seconds; fewer than three parts raises `IndexError`,
non-numeric parts raise `ValueError`. -/
def parse_toggl_duration (duration_str : List Char) : Except String Int := do
  let parts := splitOnChar ':' duration_str
  let h ← match parts.get? 0 with
    | none => .error "IndexError"
    | some p => match pyInt p with
      | none => .error "ValueError: invalid literal for int"
      | some v => pure v
  let m ← match parts.get? 1 with
    | none => .error "IndexError"
    | some p => match pyInt p with
      | none => .error "ValueError: invalid literal for int"
      | some v => pure v
  let s ← match parts.get? 2 with
    | none => .error "IndexError"
    | some p => match pyInt p with
      | none => .error "ValueError: invalid literal for int"
      | some v => pure v
  pure (h * 3600 + m * 60 + s)

/-- `toggl_export.format_duration_hms(seconds)`: seconds back to
`HH:MM:SS`. -/
def format_duration_hms (seconds : Int) : String :=
  toString (seconds.fdiv 3600) ++ ":" ++ pad2 ((seconds.fmod 3600).fdiv 60)
    ++ ":" ++ pad2 (seconds.fmod 60)

/-- A row loaded from the Toggl CSV (`load_toggl_csv`): the columns
`convert_to_clockify` reads.  `Duration`, `Start date` and `Start time` are
accessed with mandatory indexing, the rest through `.get`. -/
structure TogglEntry where
  duration : List Char
  startDate : List Char
  startTime : List Char
  project : Option String
  description : Option String
  email : Option String
  billable : Option String
deriving DecidableEq, Repr

/-- A naive `datetime` as produced by `strptime(s, '%H:%M:%S')` (the date
part defaults to 1900-01-01 and is irrelevant to the formats used). -/
def strptimeTime (cs : List Char) : Except String CivilDT :=
  match splitOnChar ':' cs with
  | [hs, ms, ss] =>
    if hs ≠ [] ∧ allDigits hs ∧ hs.length ≤ 2 ∧
       ms ≠ [] ∧ allDigits ms ∧ ms.length ≤ 2 ∧
       ss ≠ [] ∧ allDigits ss ∧ ss.length ≤ 2 then
      let h : Int := digitsVal hs
      let m : Int := digitsVal ms
      let s : Int := digitsVal ss
      if h ≤ 23 ∧ m ≤ 59 ∧ s ≤ 59 then
        .ok ⟨1900, 1, 1, h, m, s⟩
      else .error "ValueError: time data does not match format"
    else .error "ValueError: time data does not match format"
  | _ => .error "ValueError: time data does not match format"

/-- Per-entry decision of the date-range filter of
`toggl_export.convert_to_clockify` (lines 83–91): the compared date is the
entry's `Start date` column parsed with `strptime('%Y-%m-%d')` (raising on
a malformed column). -/
def togglDateKeep (start_date end_date : Option PyDate) (e : TogglEntry) :
    Except String Bool := do
  let entry_date ← strptimeDate e.startDate
  match start_date with
  | some s => if dateLt entry_date s then pure false else
    match end_date with
    | some t => pure (!dateLt t entry_date)
    | none => pure true
  | none =>
    match end_date with
    | some t => pure (!dateLt t entry_date)
    | none => pure true

/-- Filter stage of `toggl_export.convert_to_clockify`: when a bound is
given, parse the bounds and run the date filter; there is no status filter
and — unlike the Jiffy pipeline — no sort anywhere. -/
def togglKept (from_date to_date : Option (List Char))
    (entries : List TogglEntry) : Except String (List TogglEntry) := do
  if from_date.isSome ∨ to_date.isSome then
    let start_date ← match from_date with
      | some s => (strptimeDate s).map some
      | none => pure none
    let end_date ← match to_date with
      | some s => (strptimeDate s).map some
      | none => pure none
    filterE (togglDateKeep start_date end_date) entries
  else
    pure entries

/-- The project→client mapping (`load_projects_json` result) as passed to
`convert_to_clockify`: `None`, or a dict modelled as an association list
(first match wins; `load_projects_json` keeps keys unique). -/
def ProjMap := Option (List (String × String))

/-- Row construction of `toggl_export.convert_to_clockify`'s write loop.
`Billable` is copied from the source row with default `"No"`
(`entry.get('Billable', 'No')`), and the `Duration (h)` column again holds
an `HH:MM:SS` string. -/
def mkClockifyFromToggl (project_to_client : ProjMap) (e : TogglEntry) :
    Except String ClockifyRow := do
  let duration_seconds ← parse_toggl_duration e.duration
  let duration_hms := format_duration_hms duration_seconds
  let start_date ← strptimeDate e.startDate
  let start_time ← strptimeTime e.startTime
  let project_name := e.project.getD ""
  -- `if project_to_client and project_name:` — a None or empty dict and an
  -- empty project name are all falsy
  let client_name :=
    match project_to_client with
    | some l =>
      if l ≠ [] ∧ project_name ≠ "" then
        match l.lookup project_name with
        | some c => c
        | none => ""
      else ""
    | none => ""
  pure { project := project_name
         client := client_name
         description := e.description.getD ""
         task := ""
         email := e.email.getD ""
         tags := ""
         billable := e.billable.getD "No"
         startDate := fmtMDY ⟨start_date.year, start_date.month, start_date.day, 0, 0, 0⟩
         startTime := fmtTime12 start_time
         durationH := duration_hms }

/-- `toggl_export.convert_to_clockify(entries, output_file, from_date,
to_date, project_to_client)`, modelled as the list of written data rows:
the kept entries in input order (no sort), each transformed. -/
def convert_to_clockify (entries : List TogglEntry)
    (from_date to_date : Option (List Char)) (project_to_client : ProjMap) :
    Except String (List ClockifyRow) := do
  let kept ← togglKept from_date to_date entries
  mapE (mkClockifyFromToggl project_to_client) kept

end TogglExport

/-! ## Helper lemmas -/

namespace Jiffy

theorem filterE_sublist {α : Type} {p : α → Except String Bool} :
    ∀ {l l' : List α}, filterE p l = .ok l' → l'.Sublist l := by
  intro l
  induction l with
  | nil =>
    intro l' h
    simp only [filterE, Except.ok.injEq] at h
    subst h
    exact List.Sublist.refl _
  | cons x xs ih =>
    intro l' h
    simp only [filterE, bind, Except.bind] at h
    cases hp : p x with
    | error e => rw [hp] at h; exact absurd h (by simp)
    | ok b =>
      rw [hp] at h
      cases hr : filterE p xs with
      | error e => rw [hr] at h; exact absurd h (by simp)
      | ok rest =>
        rw [hr] at h
        simp only [pure, Except.pure, Except.ok.injEq] at h
        subst h
        cases b with
        | true => exact (ih hr).cons₂ x
        | false => exact (ih hr).cons x

theorem mapE_ok_mem {α β : Type} {f : α → Except String β} :
    ∀ {l : List α} {ys : List β}, mapE f l = .ok ys →
      ∀ y ∈ ys, ∃ x ∈ l, f x = .ok y := by
  intro l
  induction l with
  | nil =>
    intro ys h y hy
    simp only [mapE, Except.ok.injEq] at h
    subst h
    exact absurd hy (by simp)
  | cons x xs ih =>
    intro ys h y hy
    simp only [mapE, bind, Except.bind] at h
    cases hx : f x with
    | error e => rw [hx] at h; exact absurd h (by simp)
    | ok r =>
      rw [hx] at h
      cases hr : mapE f xs with
      | error e => rw [hr] at h; exact absurd h (by simp)
      | ok rest =>
        rw [hr] at h
        simp only [pure, Except.pure, Except.ok.injEq] at h
        subst h
        rcases List.mem_cons.mp hy with rfl | hy'
        · exact ⟨x, by simp, hx⟩
        · obtain ⟨x', hx', hfx'⟩ := ih hr y hy'
          exact ⟨x', by simp [hx'], hfx'⟩

theorem mem_insertByStart {x a : TimeEntry} :
    ∀ {l : List TimeEntry}, a ∈ insertByStart x l ↔ a = x ∨ a ∈ l := by
  intro l
  induction l with
  | nil => simp [insertByStart]
  | cons y ys ih =>
    simp only [insertByStart]
    by_cases hle : x.start_time ≤ y.start_time
    · simp only [if_pos hle, List.mem_cons]
    · simp only [if_neg hle, List.mem_cons, ih]
      tauto

theorem mem_sortByStart {a : TimeEntry} :
    ∀ {l : List TimeEntry}, a ∈ sortByStart l ↔ a ∈ l := by
  intro l
  induction l with
  | nil => simp [sortByStart]
  | cons x xs ih =>
    simp only [sortByStart, mem_insertByStart, List.mem_cons, ih]

theorem sorted_insertByStart {x : TimeEntry} {l : List TimeEntry}
    (h : l.Pairwise (fun a b => a.start_time ≤ b.start_time)) :
    (insertByStart x l).Pairwise (fun a b => a.start_time ≤ b.start_time) := by
  induction l with
  | nil => simp [insertByStart]
  | cons y ys ih =>
    rcases List.pairwise_cons.mp h with ⟨hy, hys⟩
    simp only [insertByStart]
    by_cases hle : x.start_time ≤ y.start_time
    · rw [if_pos hle]
      refine List.pairwise_cons.mpr ⟨?_, h⟩
      intro z hz
      rcases List.mem_cons.mp hz with rfl | hz'
      · exact hle
      · exact le_trans hle (hy z hz')
    · rw [if_neg hle]
      refine List.pairwise_cons.mpr ⟨?_, ih hys⟩
      intro z hz
      rcases mem_insertByStart.mp hz with rfl | hz'
      · exact le_of_lt (lt_of_not_le hle)
      · exact hy z hz'

theorem sorted_sortByStart :
    ∀ (l : List TimeEntry),
      (sortByStart l).Pairwise (fun a b => a.start_time ≤ b.start_time) := by
  intro l
  induction l with
  | nil => simp [sortByStart]
  | cons x xs ih => exact sorted_insertByStart ih

theorem filter_insertByStart {x : TimeEntry} {k : Int} :
    ∀ {l : List TimeEntry},
      (insertByStart x l).filter (fun e => e.start_time == k) =
        if x.start_time == k then x :: l.filter (fun e => e.start_time == k)
        else l.filter (fun e => e.start_time == k) := by
  intro l
  induction l with
  | nil => simp [insertByStart, List.filter_cons, beq_iff_eq]
  | cons y ys ih =>
    simp only [insertByStart]
    by_cases hle : x.start_time ≤ y.start_time
    · rw [if_pos hle]
      by_cases hk : x.start_time = k
      · simp [List.filter_cons, beq_iff_eq, hk]
      · simp [List.filter_cons, beq_iff_eq, hk]
    · rw [if_neg hle]
      by_cases hk : x.start_time = k
      · have hyk : ¬ y.start_time = k := by
          intro e
          exact hle (by rw [hk, e])
        simp [List.filter_cons, beq_iff_eq, hyk, ih, hk]
      · by_cases hyk : y.start_time = k
        · simp [List.filter_cons, beq_iff_eq, hyk, ih, hk]
        · simp [List.filter_cons, beq_iff_eq, hyk, ih, hk]

theorem filter_sortByStart {k : Int} :
    ∀ (l : List TimeEntry),
      (sortByStart l).filter (fun e => e.start_time == k) =
        l.filter (fun e => e.start_time == k) := by
  intro l
  induction l with
  | nil => simp [sortByStart]
  | cons x xs ih =>
    simp only [sortByStart, filter_insertByStart, ih]
    by_cases hk : x.start_time = k
    · simp [List.filter_cons, beq_iff_eq, hk]
    · simp [List.filter_cons, beq_iff_eq, hk]

theorem get_owner_name_eq_find (owner_id : String) :
    ∀ (os : List Owner),
      get_owner_name owner_id os =
        match os.find? (fun o => o.id == owner_id) with
        | none => "Unknown"
        | some o => o.name.getD "Unknown" := by
  intro os
  induction os with
  | nil => simp [get_owner_name, List.find?]
  | cons o os ih =>
    simp only [get_owner_name, List.find?]
    by_cases h : o.id = owner_id
    · simp [h]
    · simp only [beq_iff_eq, h, ih]
      simp [show (o.id == owner_id) = false by simp [h]]

theorem findParentName_eq_find (parent_id : String) :
    ∀ (os : List Owner),
      findParentName parent_id os =
        match os.find? (fun o => o.id == parent_id) with
        | none => ""
        | some o => o.name.getD "" := by
  intro os
  induction os with
  | nil => simp [findParentName, List.find?]
  | cons o os ih =>
    simp only [findParentName, List.find?]
    by_cases h : o.id = parent_id
    · simp [h]
    · simp only [beq_iff_eq, h, ih]
      simp [show (o.id == parent_id) = false by simp [h]]

theorem parentNameLoop_eq_find (owner_id : String) (full : List Owner) :
    ∀ (os : List Owner),
      parentNameLoop owner_id full os =
        match os.find? (fun o => o.id == owner_id) with
        | none => ""
        | some o =>
          match o.parent_id with
          | none => ""
          | some p => if p ≠ "" then findParentName p full else "" := by
  intro os
  induction os with
  | nil => simp [parentNameLoop, List.find?]
  | cons o os ih =>
    simp only [parentNameLoop, List.find?]
    by_cases h : o.id = owner_id
    · cases hp : o.parent_id <;> simp [h, hp]
    · simp only [beq_iff_eq, h, ih]
      simp [show (o.id == owner_id) = false by simp [h]]

theorem jiffyKept_sublist {db : TzDb} {from_date to_date : Option (List Char)}
    {data : JiffyData} {kept : List TimeEntry}
    (h : jiffyKept db from_date to_date data = .ok kept) :
    kept.Sublist (data.time_entries.filter (fun e => e.status == some "ACTIVE")) := by
  unfold jiffyKept at h
  by_cases hb : (from_date.isSome ∨ to_date.isSome : Prop)
  · rw [if_pos hb] at h
    simp only [bind, Except.bind] at h
    cases from_date with
    | none =>
      cases to_date with
      | none => simp at hb
      | some ts =>
        dsimp only at h
        simp only [pure, Except.pure] at h
        cases hts : strptimeDate ts with
        | error e => rw [hts] at h; simp [Except.map] at h
        | ok td =>
          rw [hts] at h
          simp only [Except.map] at h
          exact filterE_sublist h
    | some fs =>
      dsimp only at h
      cases hfs : strptimeDate fs with
      | error e => rw [hfs] at h; simp [Except.map] at h
      | ok fd =>
        rw [hfs] at h
        simp only [Except.map] at h
        cases to_date with
        | none =>
          dsimp only at h
          simp only [pure, Except.pure] at h
          exact filterE_sublist h
        | some ts =>
          dsimp only at h
          cases hts : strptimeDate ts with
          | error e => rw [hts] at h; simp [Except.map] at h
          | ok td =>
            rw [hts] at h
            simp only [Except.map] at h
            exact filterE_sublist h
  · rw [if_neg hb] at h
    simp only [pure, Except.pure, Except.ok.injEq] at h
    subst h
    exact List.Sublist.refl _

theorem isPyWs_eq_false_of_digit {c : Char} (h : c.isDigit = true) :
    isPyWs c = false := by
  have h1 : c ≠ ' ' := by rintro rfl; exact absurd h (by decide)
  have h2 : c ≠ '\t' := by rintro rfl; exact absurd h (by decide)
  have h3 : c ≠ '\n' := by rintro rfl; exact absurd h (by decide)
  have h4 : c ≠ '\r' := by rintro rfl; exact absurd h (by decide)
  simp [isPyWs, h1, h2, h3, h4]

theorem dropWhile_eq_self_of_forall {p : Char → Bool} {l : List Char}
    (h : ∀ c ∈ l, p c = false) : l.dropWhile p = l := by
  cases l with
  | nil => rfl
  | cons c cs => simp [List.dropWhile, h c (by simp)]

theorem pyStrip_of_digits {cs : List Char} (h : allDigits cs = true) :
    pyStrip cs = cs := by
  have hall : ∀ c ∈ cs, c.isDigit = true := by
    intro c hc
    exact List.all_eq_true.mp h c hc
  have h1 : cs.dropWhile isPyWs = cs :=
    dropWhile_eq_self_of_forall (fun c hc => isPyWs_eq_false_of_digit (hall c hc))
  have h2 : cs.reverse.dropWhile isPyWs = cs.reverse :=
    dropWhile_eq_self_of_forall
      (fun c hc => isPyWs_eq_false_of_digit (hall c (List.mem_reverse.mp hc)))
  simp [pyStrip, h1, h2]

theorem pyInt_of_digits {cs : List Char} (hne : cs ≠ []) (hd : allDigits cs = true) :
    pyInt cs = some ((digitsVal cs : Int)) := by
  unfold pyInt
  rw [pyStrip_of_digits hd]
  cases cs with
  | nil => exact absurd rfl hne
  | cons c cs' =>
    have hc : c.isDigit = true := List.all_eq_true.mp hd c (by simp)
    have hplus : c ≠ '+' := by rintro rfl; exact absurd hc (by decide)
    have hminus : c ≠ '-' := by rintro rfl; exact absurd hc (by decide)
    split
    · rename_i heq; injection heq with h1 _; exact absurd h1 hplus
    · rename_i heq; injection heq with h1 _; exact absurd h1 hminus
    · simp [natOfDigits, hd]

theorem digit_str_not_mem_colon {cs : List Char} (hd : allDigits cs = true) :
    ':' ∉ cs := by
  intro hc
  exact absurd (List.all_eq_true.mp hd _ hc) (by decide)

theorem splitOnChar_of_not_mem {sep : Char} :
    ∀ {l : List Char}, sep ∉ l → splitOnChar sep l = [l] := by
  intro l
  induction l with
  | nil => intro _; rfl
  | cons c cs ih =>
    intro h
    have hc : c ≠ sep := fun e => h (by simp [e])
    have hcs : sep ∉ cs := fun e => h (by simp [e])
    simp only [splitOnChar, ih hcs]
    simp [hc]

theorem splitOnChar_append {sep : Char} {b : List Char} :
    ∀ {a : List Char}, sep ∉ a →
      splitOnChar sep (a ++ sep :: b) = a :: splitOnChar sep b := by
  intro a
  induction a with
  | nil => intro _; simp [splitOnChar]
  | cons c cs ih =>
    intro h
    have hc : c ≠ sep := fun e => h (by simp [e])
    have hcs : sep ∉ cs := fun e => h (by simp [e])
    simp only [List.cons_append, splitOnChar, List.append_eq]
    rw [ih hcs]
    simp [hc]

/-- The `GMT+HH:MM` branch of the normalizer on a well-formed descriptor
built from digit strings `hs` (hours) and `ms` (minutes): the result is the
UTC reading shifted forward by the offset. -/
theorem parse_gmt_plus {db : TzDb} {t : Int} {hs ms : List Char}
    (hhne : hs ≠ []) (hhd : allDigits hs = true)
    (hmne : ms ≠ []) (hmd : allDigits ms = true) :
    parse_jiffy_timestamp db t ('G' :: 'M' :: 'T' :: '+' :: (hs ++ ':' :: ms)) =
      .ok (civilOfMs (t + ((digitsVal hs : Int) * 3600000 + (digitsVal ms : Int) * 60000))) := by
  have hsplit : splitOnChar ':' (hs ++ ':' :: ms) = [hs, ms] := by
    rw [splitOnChar_append (digit_str_not_mem_colon hhd),
        splitOnChar_of_not_mem (digit_str_not_mem_colon hmd)]
  unfold parse_jiffy_timestamp
  simp only [List.take, List.drop, List.head?, hsplit, List.headD, List.length,
    List.getD, List.get?, pyInt_of_digits hhne hhd, pyInt_of_digits hmne hmd]
  norm_num [pyInt_of_digits hmne hmd]
  intro hx
  simp at hx

/-- The `GMT-HH:MM` branch: the result is the UTC reading shifted backward
by the offset. -/
theorem parse_gmt_minus {db : TzDb} {t : Int} {hs ms : List Char}
    (hhne : hs ≠ []) (hhd : allDigits hs = true)
    (hmne : ms ≠ []) (hmd : allDigits ms = true) :
    parse_jiffy_timestamp db t ('G' :: 'M' :: 'T' :: '-' :: (hs ++ ':' :: ms)) =
      .ok (civilOfMs (t - ((digitsVal hs : Int) * 3600000 + (digitsVal ms : Int) * 60000))) := by
  have hsplit : splitOnChar ':' (hs ++ ':' :: ms) = [hs, ms] := by
    rw [splitOnChar_append (digit_str_not_mem_colon hhd),
        splitOnChar_of_not_mem (digit_str_not_mem_colon hmd)]
  unfold parse_jiffy_timestamp
  simp only [List.take, List.drop, List.head?, hsplit, List.headD, List.length,
    List.getD, List.get?, pyInt_of_digits hhne hhd, pyInt_of_digits hmne hmd]
  norm_num [pyInt_of_digits hmne hmd]
  rw [if_neg (show ¬('-' :: (hs ++ ':' :: ms) = []) by simp)]
  simp only [show ('-' = '+') = False by decide, if_false]
  congr 1
  ring

theorem jiffySelect_ok {db : TzDb} {f t : Option (List Char)} {data : JiffyData}
    {es : List TimeEntry} (h : jiffySelect db f t data = .ok es) :
    ∃ kept, jiffyKept db f t data = .ok kept ∧ es = sortByStart kept := by
  unfold jiffySelect at h
  cases hk : jiffyKept db f t data with
  | error e => rw [hk] at h; simp [Except.map] at h
  | ok kept =>
    rw [hk] at h
    simp only [Except.map, Except.ok.injEq] at h
    exact ⟨kept, rfl, h.symm⟩

theorem mem_of_jiffySelect {db : TzDb} {f t : Option (List Char)}
    {data : JiffyData} {es : List TimeEntry} {e : TimeEntry}
    (h : jiffySelect db f t data = .ok es) (he : e ∈ es) :
    e ∈ data.time_entries ∧ e.status = some "ACTIVE" := by
  obtain ⟨kept, hk, rfl⟩ := jiffySelect_ok h
  have hmem : e ∈ kept := mem_sortByStart.mp he
  have hsub := jiffyKept_sublist hk
  have hf : e ∈ data.time_entries.filter (fun e => e.status == some "ACTIVE") :=
    hsub.subset hmem
  rcases List.mem_filter.mp hf with ⟨h1, h2⟩
  exact ⟨h1, by simpa using h2⟩

theorem mkTogglRow_ok_billable {db : TzDb} {otz : List Char} {email : String}
    {os : List Owner} {e : TimeEntry} {r : TogglRow}
    (h : mkTogglRow db otz email os e = .ok r) : r.billable = "No" := by
  unfold mkTogglRow at h
  simp only [bind, Except.bind] at h
  cases h1 : convert_to_output_timezone db e.start_time e.start_time_zone otz with
  | error _ => rw [h1] at h; exact absurd h (by simp)
  | ok c1 =>
    rw [h1] at h
    cases h2 : convert_to_output_timezone db e.stop_time e.stop_time_zone otz with
    | error _ => rw [h2] at h; exact absurd h (by simp)
    | ok c2 =>
      rw [h2] at h
      simp only [pure, Except.pure, Except.ok.injEq] at h
      rw [← h]

theorem mkClockifyRow_ok_billable {db : TzDb} {otz : List Char} {email : String}
    {os : List Owner} {e : TimeEntry} {r : ClockifyRow}
    (h : mkClockifyRow db otz email os e = .ok r) : r.billable = "No" := by
  unfold mkClockifyRow at h
  simp only [bind, Except.bind] at h
  cases h1 : convert_to_output_timezone db e.start_time e.start_time_zone otz with
  | error _ => rw [h1] at h; exact absurd h (by simp)
  | ok c1 =>
    rw [h1] at h
    cases h2 : convert_to_output_timezone db e.stop_time e.stop_time_zone otz with
    | error _ => rw [h2] at h; exact absurd h (by simp)
    | ok c2 =>
      rw [h2] at h
      simp only [pure, Except.pure, Except.ok.injEq] at h
      rw [← h]

theorem dateLt_irrefl (d : PyDate) : dateLt d d = false := by
  simp [dateLt]

theorem filterE_singleton_true {α : Type} {p : α → Except String Bool} {x : α}
    (h : p x = .ok true) : filterE p [x] = .ok [x] := by
  simp [filterE, h, bind, Except.bind, pure, Except.pure]

end Jiffy

namespace TogglExport

open Jiffy

theorem togglKept_sublist {from_date to_date : Option (List Char)}
    {entries kept : List TogglEntry}
    (h : togglKept from_date to_date entries = .ok kept) :
    kept.Sublist entries := by
  unfold togglKept at h
  by_cases hb : (from_date.isSome ∨ to_date.isSome : Prop)
  · rw [if_pos hb] at h
    simp only [bind, Except.bind] at h
    cases from_date with
    | none =>
      cases to_date with
      | none => simp at hb
      | some ts =>
        dsimp only at h
        simp only [pure, Except.pure] at h
        cases hts : strptimeDate ts with
        | error e => rw [hts] at h; simp [Except.map] at h
        | ok td =>
          rw [hts] at h
          simp only [Except.map] at h
          exact filterE_sublist h
    | some fs =>
      dsimp only at h
      cases hfs : strptimeDate fs with
      | error e => rw [hfs] at h; simp [Except.map] at h
      | ok fd =>
        rw [hfs] at h
        simp only [Except.map] at h
        cases to_date with
        | none =>
          dsimp only at h
          simp only [pure, Except.pure] at h
          exact filterE_sublist h
        | some ts =>
          dsimp only at h
          cases hts : strptimeDate ts with
          | error e => rw [hts] at h; simp [Except.map] at h
          | ok td =>
            rw [hts] at h
            simp only [Except.map] at h
            exact filterE_sublist h
  · rw [if_neg hb] at h
    simp only [pure, Except.pure, Except.ok.injEq] at h
    subst h
    exact List.Sublist.refl _

end TogglExport

namespace Jiffy

/-- Shared characterization of the per-entry date-filter decision: it is the
entry-zone parse result mapped through interval membership. -/
theorem jiffyDateKeep_eq_map (db : TzDb) (sd ed : Option PyDate) (e : TimeEntry) :
    jiffyDateKeep db sd ed e =
      (parse_jiffy_timestamp db e.start_time e.start_time_zone).map (fun c =>
        (match sd with | some s => !dateLt c.date s | none => true) &&
        (match ed with | some t => !dateLt t c.date | none => true)) := by
  unfold jiffyDateKeep
  cases hp : parse_jiffy_timestamp db e.start_time e.start_time_zone with
  | error err => simp [bind, Except.bind, Except.map, hp]
  | ok c =>
    simp only [bind, Except.bind, hp, Except.map]
    cases sd with
    | none => cases ed <;> simp [pure, Except.pure]
    | some s =>
      by_cases hlt : dateLt c.date s = true
      · cases ed <;> simp [hlt, pure, Except.pure]
      · rw [Bool.not_eq_true] at hlt
        cases ed <;> simp [hlt, pure, Except.pure]

end Jiffy

/-! ## Claims -/

/-- C9: owner resolution never fails: `get_owner_name` returns the first
matching owner's name (defaulting a missing owner or a missing name field
to "Unknown"), and `get_parent_owner_name` returns the parent's name with
every missing link — unknown owner id, absent/empty `parent_id`, parent id
matching no owner, parent without a name — yielding "" or "Unknown"
defaults.  Both are total Lean functions, so no input raises. -/
theorem owner_resolution_total (owner_id : String) (os : List Jiffy.Owner) :
    Jiffy.get_owner_name owner_id os =
      (match os.find? (fun o => o.id == owner_id) with
       | none => "Unknown"
       | some o => o.name.getD "Unknown") ∧
    Jiffy.get_parent_owner_name owner_id os =
      (match os.find? (fun o => o.id == owner_id) with
       | none => ""
       | some o =>
         match o.parent_id with
         | none => ""
         | some p =>
           if p ≠ "" then
             (match os.find? (fun q => q.id == p) with
              | none => ""
              | some q => q.name.getD "")
           else "") := by
  constructor
  · exact Jiffy.get_owner_name_eq_find owner_id os
  · unfold Jiffy.get_parent_owner_name
    rw [Jiffy.parentNameLoop_eq_find]
    cases hf : os.find? (fun o => o.id == owner_id) with
    | none => rfl
    | some o =>
      cases hp : o.parent_id with
      | none => simp [hp]
      | some p =>
        by_cases hpe : p = ""
        · simp [hp, hpe]
        · simp only [hp, hpe, ne_eq, not_false_eq_true, if_true,
            Jiffy.findParentName_eq_find]

/-- C10: Jiffy pre-write sort stability: the sorted entry sequence each
converter writes is a stable ascending sort of the kept entries, so entries
sharing a `start_time` keep the relative order they had in the input
`time_entries` array (of which the kept list is an order-preserving
sublist). -/
theorem jiffy_sort_stable_at_equal_keys (db : Jiffy.TzDb)
    (f t : Option (List Char)) (data : Jiffy.JiffyData)
    (kept : List Jiffy.TimeEntry) (k : Int)
    (h : Jiffy.jiffyKept db f t data = .ok kept) :
    Jiffy.jiffySelect db f t data = .ok (Jiffy.sortByStart kept) ∧
    kept.Sublist data.time_entries ∧
    (Jiffy.sortByStart kept).filter (fun e => e.start_time == k) =
      kept.filter (fun e => e.start_time == k) := by
  refine ⟨?_, ?_, Jiffy.filter_sortByStart kept⟩
  · unfold Jiffy.jiffySelect
    rw [h]
    rfl
  · exact (Jiffy.jiffyKept_sublist h).trans (List.filter_sublist _)

/-- C10 witness: two ACTIVE entries with the same start time, plus one with
a later start time in front; the sort moves the later entry back and keeps
the two equal-keyed entries in input order. -/
theorem jiffy_sort_stable_at_equal_keys_witness :
    Jiffy.jiffySelect Jiffy.emptyDb none none
        ⟨[⟨"b", 5000, 6000, "UTC".data, "UTC".data, none, some "ACTIVE"⟩,
          ⟨"p", 1000, 2000, "UTC".data, "UTC".data, none, some "ACTIVE"⟩,
          ⟨"q", 1000, 3000, "UTC".data, "UTC".data, none, some "ACTIVE"⟩], []⟩ =
      .ok (Jiffy.sortByStart
        [⟨"b", 5000, 6000, "UTC".data, "UTC".data, none, some "ACTIVE"⟩,
         ⟨"p", 1000, 2000, "UTC".data, "UTC".data, none, some "ACTIVE"⟩,
         ⟨"q", 1000, 3000, "UTC".data, "UTC".data, none, some "ACTIVE"⟩]) ∧
    ([⟨"b", 5000, 6000, "UTC".data, "UTC".data, none, some "ACTIVE"⟩,
      ⟨"p", 1000, 2000, "UTC".data, "UTC".data, none, some "ACTIVE"⟩,
      ⟨"q", 1000, 3000, "UTC".data, "UTC".data, none, some "ACTIVE"⟩] :
        List Jiffy.TimeEntry).Sublist
      [⟨"b", 5000, 6000, "UTC".data, "UTC".data, none, some "ACTIVE"⟩,
       ⟨"p", 1000, 2000, "UTC".data, "UTC".data, none, some "ACTIVE"⟩,
       ⟨"q", 1000, 3000, "UTC".data, "UTC".data, none, some "ACTIVE"⟩] ∧
    (Jiffy.sortByStart
        [⟨"b", 5000, 6000, "UTC".data, "UTC".data, none, some "ACTIVE"⟩,
         ⟨"p", 1000, 2000, "UTC".data, "UTC".data, none, some "ACTIVE"⟩,
         ⟨"q", 1000, 3000, "UTC".data, "UTC".data, none, some "ACTIVE"⟩]).filter
        (fun e => e.start_time == 1000) =
      ([⟨"b", 5000, 6000, "UTC".data, "UTC".data, none, some "ACTIVE"⟩,
        ⟨"p", 1000, 2000, "UTC".data, "UTC".data, none, some "ACTIVE"⟩,
        ⟨"q", 1000, 3000, "UTC".data, "UTC".data, none, some "ACTIVE"⟩] :
          List Jiffy.TimeEntry).filter (fun e => e.start_time == 1000) :=
  jiffy_sort_stable_at_equal_keys Jiffy.emptyDb none none _ _ 1000 rfl

/-- C8: only entries whose `status` is exactly "ACTIVE" ever produce a row:
every row an (error-free) conversion writes is the transform of some ACTIVE
entry of the input. -/
theorem only_active_entries_produce_rows (db : Jiffy.TzDb)
    (data : Jiffy.JiffyData) (email : String) (f t : Option (List Char))
    (otz : List Char) (togglRows : List Jiffy.TogglRow)
    (clockRows : List Jiffy.ClockifyRow) :
    (Jiffy.convert_to_toggl db data email f t otz = .ok togglRows →
      ∀ r ∈ togglRows, ∃ e, e ∈ data.time_entries ∧ e.status = some "ACTIVE" ∧
        Jiffy.mkTogglRow db otz email data.time_owners e = .ok r) ∧
    (Jiffy.convert_to_clockify db data email f t otz = .ok clockRows →
      ∀ r ∈ clockRows, ∃ e, e ∈ data.time_entries ∧ e.status = some "ACTIVE" ∧
        Jiffy.mkClockifyRow db otz email data.time_owners e = .ok r) := by
  constructor
  · intro h r hr
    unfold Jiffy.convert_to_toggl at h
    simp only [bind, Except.bind] at h
    cases hs : Jiffy.jiffySelect db f t data with
    | error err => rw [hs] at h; exact absurd h (by simp)
    | ok es =>
      rw [hs] at h
      obtain ⟨x, hx, hfx⟩ := Jiffy.mapE_ok_mem h r hr
      obtain ⟨hmem, hact⟩ := Jiffy.mem_of_jiffySelect hs hx
      exact ⟨x, hmem, hact, hfx⟩
  · intro h r hr
    unfold Jiffy.convert_to_clockify at h
    simp only [bind, Except.bind] at h
    cases hs : Jiffy.jiffySelect db f t data with
    | error err => rw [hs] at h; exact absurd h (by simp)
    | ok es =>
      rw [hs] at h
      obtain ⟨x, hx, hfx⟩ := Jiffy.mapE_ok_mem h r hr
      obtain ⟨hmem, hact⟩ := Jiffy.mem_of_jiffySelect hs hx
      exact ⟨x, hmem, hact, hfx⟩

/-- C8 witness: one ACTIVE and one DELETED entry; both converters emit one
row and it originates from the ACTIVE entry. -/
theorem only_active_entries_produce_rows_witness :
    (∀ r ∈ ([⟨"-", "No", "1:00:00", "a@b.c", "Unknown", "2024-01-01", "17:00:00"⟩] :
        List Jiffy.TogglRow),
      ∃ e, e ∈ [⟨"p1", 1704103200000, 1704106800000, "GMT+07:00".data, "GMT+07:00".data,
                  none, some "ACTIVE"⟩,
                ⟨"p1", 1704103200000, 1704106800000, "GMT+07:00".data, "GMT+07:00".data,
                  none, some "DELETED"⟩] ∧
        e.status = some "ACTIVE" ∧
        Jiffy.mkTogglRow Jiffy.emptyDb "GMT+07:00".data "a@b.c" [] e = .ok r) ∧
    (∀ r ∈ ([⟨"Unknown", "", "", "", "a@b.c", "", "No", "01/01/2024", "5:00 PM",
          "1:00:00"⟩] : List Jiffy.ClockifyRow),
      ∃ e, e ∈ [⟨"p1", 1704103200000, 1704106800000, "GMT+07:00".data, "GMT+07:00".data,
                  none, some "ACTIVE"⟩,
                ⟨"p1", 1704103200000, 1704106800000, "GMT+07:00".data, "GMT+07:00".data,
                  none, some "DELETED"⟩] ∧
        e.status = some "ACTIVE" ∧
        Jiffy.mkClockifyRow Jiffy.emptyDb "GMT+07:00".data "a@b.c" [] e = .ok r) :=
  And.intro
    ((only_active_entries_produce_rows Jiffy.emptyDb
        ⟨[⟨"p1", 1704103200000, 1704106800000, "GMT+07:00".data, "GMT+07:00".data,
            none, some "ACTIVE"⟩,
          ⟨"p1", 1704103200000, 1704106800000, "GMT+07:00".data, "GMT+07:00".data,
            none, some "DELETED"⟩], []⟩
        "a@b.c" none none "GMT+07:00".data
        [⟨"-", "No", "1:00:00", "a@b.c", "Unknown", "2024-01-01", "17:00:00"⟩]
        [⟨"Unknown", "", "", "", "a@b.c", "", "No", "01/01/2024", "5:00 PM",
          "1:00:00"⟩]).1 rfl)
    ((only_active_entries_produce_rows Jiffy.emptyDb
        ⟨[⟨"p1", 1704103200000, 1704106800000, "GMT+07:00".data, "GMT+07:00".data,
            none, some "ACTIVE"⟩,
          ⟨"p1", 1704103200000, 1704106800000, "GMT+07:00".data, "GMT+07:00".data,
            none, some "DELETED"⟩], []⟩
        "a@b.c" none none "GMT+07:00".data
        [⟨"-", "No", "1:00:00", "a@b.c", "Unknown", "2024-01-01", "17:00:00"⟩]
        [⟨"Unknown", "", "", "", "a@b.c", "", "No", "01/01/2024", "5:00 PM",
          "1:00:00"⟩]).2 rfl)

/-- C6: for every well-formed `GMT+HH:MM` / `GMT-HH:MM` descriptor (digit
strings for hours and minutes), the normalizer returns the UTC reading of
the instant shifted by exactly the signed offset, and shifting the
underlying instant back by the same offset reproduces the UTC reading
exactly. -/
theorem gmt_fixed_offset_roundtrip (db : Jiffy.TzDb) (t : Int)
    (hs ms : List Char) (hhne : hs ≠ []) (hhd : Jiffy.allDigits hs = true)
    (hmne : ms ≠ []) (hmd : Jiffy.allDigits ms = true) :
    Jiffy.parse_jiffy_timestamp db t ('G' :: 'M' :: 'T' :: '+' :: (hs ++ ':' :: ms)) =
      .ok (Jiffy.civilOfMs (t + ((Jiffy.digitsVal hs : Int) * 3600000 +
        (Jiffy.digitsVal ms : Int) * 60000))) ∧
    Jiffy.parse_jiffy_timestamp db t ('G' :: 'M' :: 'T' :: '-' :: (hs ++ ':' :: ms)) =
      .ok (Jiffy.civilOfMs (t - ((Jiffy.digitsVal hs : Int) * 3600000 +
        (Jiffy.digitsVal ms : Int) * 60000))) ∧
    Jiffy.civilOfMs (t + ((Jiffy.digitsVal hs : Int) * 3600000 +
        (Jiffy.digitsVal ms : Int) * 60000) - ((Jiffy.digitsVal hs : Int) * 3600000 +
        (Jiffy.digitsVal ms : Int) * 60000)) = Jiffy.civilOfMs t ∧
    Jiffy.civilOfMs (t - ((Jiffy.digitsVal hs : Int) * 3600000 +
        (Jiffy.digitsVal ms : Int) * 60000) + ((Jiffy.digitsVal hs : Int) * 3600000 +
        (Jiffy.digitsVal ms : Int) * 60000)) = Jiffy.civilOfMs t :=
  ⟨Jiffy.parse_gmt_plus hhne hhd hmne hmd,
   Jiffy.parse_gmt_minus hhne hhd hmne hmd,
   by congr 1; ring,
   by congr 1; ring⟩

/-- C6 witness at `GMT+07:00` and `GMT-07:00`, instant 0. -/
theorem gmt_fixed_offset_roundtrip_witness :
    Jiffy.parse_jiffy_timestamp Jiffy.emptyDb 0
        ('G' :: 'M' :: 'T' :: '+' :: (['0', '7'] ++ ':' :: ['0', '0'])) =
      .ok (Jiffy.civilOfMs (0 + ((Jiffy.digitsVal ['0', '7'] : Int) * 3600000 +
        (Jiffy.digitsVal ['0', '0'] : Int) * 60000))) ∧
    Jiffy.parse_jiffy_timestamp Jiffy.emptyDb 0
        ('G' :: 'M' :: 'T' :: '-' :: (['0', '7'] ++ ':' :: ['0', '0'])) =
      .ok (Jiffy.civilOfMs (0 - ((Jiffy.digitsVal ['0', '7'] : Int) * 3600000 +
        (Jiffy.digitsVal ['0', '0'] : Int) * 60000))) ∧
    Jiffy.civilOfMs (0 + ((Jiffy.digitsVal ['0', '7'] : Int) * 3600000 +
        (Jiffy.digitsVal ['0', '0'] : Int) * 60000) - ((Jiffy.digitsVal ['0', '7'] : Int) * 3600000 +
        (Jiffy.digitsVal ['0', '0'] : Int) * 60000)) = Jiffy.civilOfMs 0 ∧
    Jiffy.civilOfMs (0 - ((Jiffy.digitsVal ['0', '7'] : Int) * 3600000 +
        (Jiffy.digitsVal ['0', '0'] : Int) * 60000) + ((Jiffy.digitsVal ['0', '7'] : Int) * 3600000 +
        (Jiffy.digitsVal ['0', '0'] : Int) * 60000)) = Jiffy.civilOfMs 0 :=
  gmt_fixed_offset_roundtrip Jiffy.emptyDb 0 ['0', '7'] ['0', '0']
    (by decide) (by decide) (by decide) (by decide)

/-- C3 counterexample: a descriptor starting with "GMT" whose remainder is
malformed makes both normalizer functions raise `ValueError` from `int()`
(the UTC fallback only guards the `ZoneInfo` branch), refuting totality as
claimed. -/
theorem malformed_gmt_descriptor_raises :
    Jiffy.parse_jiffy_timestamp Jiffy.emptyDb 0 "GMTfoo".data =
      .error "ValueError: invalid literal for int" ∧
    Jiffy.convert_to_output_timezone Jiffy.emptyDb 0 "UTC".data "GMTfoo".data =
      .error "ValueError: invalid literal for int" :=
  ⟨rfl, rfl⟩

/-- C3 (amended): for every descriptor that does not start with "GMT"
followed by a nonempty remainder, both normalizer functions always return a
result; and whenever such a descriptor is additionally unknown to the
timezone database, the result is exactly the UTC reading of the instant.
(Descriptors starting with "GMT" plus a malformed remainder instead raise,
see the counterexample.) -/
theorem normalizer_total_and_utc_fallback (db : Jiffy.TzDb) (ms : Int)
    (itz tz : List Char)
    (hgmt : tz.take 3 = ['G', 'M', 'T'] → tz.drop 3 = []) :
    (∃ c, Jiffy.parse_jiffy_timestamp db ms tz = .ok c) ∧
    (∃ c, Jiffy.convert_to_output_timezone db ms itz tz = .ok c) ∧
    (db tz = none →
      Jiffy.parse_jiffy_timestamp db ms tz = .ok (Jiffy.civilOfMs ms) ∧
      Jiffy.convert_to_output_timezone db ms itz tz = .ok (Jiffy.civilOfMs ms)) := by
  by_cases hg : tz.take 3 = ['G', 'M', 'T']
  · have hd := hgmt hg
    cases hdb : db tz with
    | none =>
      simp [Jiffy.parse_jiffy_timestamp, Jiffy.convert_to_output_timezone, hg, hd, hdb]
    | some off =>
      simp [Jiffy.parse_jiffy_timestamp, Jiffy.convert_to_output_timezone, hg, hd, hdb]
  · cases hdb : db tz with
    | none =>
      simp [Jiffy.parse_jiffy_timestamp, Jiffy.convert_to_output_timezone, hg, hdb]
    | some off =>
      simp [Jiffy.parse_jiffy_timestamp, Jiffy.convert_to_output_timezone, hg, hdb]

/-- C3 witness: an unknown non-GMT zone name falls back to the UTC
reading. -/
theorem normalizer_total_and_utc_fallback_witness :
    (∃ c, Jiffy.parse_jiffy_timestamp Jiffy.emptyDb 12345 "Mars/Olympus".data = .ok c) ∧
    (∃ c, Jiffy.convert_to_output_timezone Jiffy.emptyDb 12345 "UTC".data
        "Mars/Olympus".data = .ok c) ∧
    (Jiffy.emptyDb "Mars/Olympus".data = none →
      Jiffy.parse_jiffy_timestamp Jiffy.emptyDb 12345 "Mars/Olympus".data =
        .ok (Jiffy.civilOfMs 12345) ∧
      Jiffy.convert_to_output_timezone Jiffy.emptyDb 12345 "UTC".data
        "Mars/Olympus".data = .ok (Jiffy.civilOfMs 12345)) :=
  normalizer_total_and_utc_fallback Jiffy.emptyDb 12345 "UTC".data
    "Mars/Olympus".data (by decide)

/-- C4 counterexample: an ACTIVE entry recorded in `GMT+00:00`, converted
with output timezone `GMT+12:00` and bounds `2024-01-02 .. 2024-01-02`.
Its start date as rendered in the output timezone (the date written into
the row) is 2024-01-02, exactly the bound, yet the converter emits no row —
because the filter compared the date computed in the entry's own zone
(2024-01-01). -/
theorem date_filter_ignores_output_timezone :
    Jiffy.convert_to_toggl Jiffy.emptyDb
      ⟨[⟨"p1", 1704139200000, 1704142800000, "GMT+00:00".data, "GMT+00:00".data,
          none, some "ACTIVE"⟩], []⟩
      "a@b.c" (some "2024-01-02".data) (some "2024-01-02".data)
      "GMT+12:00".data = .ok [] ∧
    Jiffy.convert_to_output_timezone Jiffy.emptyDb 1704139200000
      "GMT+00:00".data "GMT+12:00".data = .ok ⟨2024, 1, 2, 8, 0, 0⟩ ∧
    Jiffy.CivilDT.date ⟨2024, 1, 2, 8, 0, 0⟩ = ⟨2024, 1, 2⟩ ∧
    Jiffy.strptimeDate "2024-01-02".data = .ok ⟨2024, 1, 2⟩ ∧
    Jiffy.parse_jiffy_timestamp Jiffy.emptyDb 1704139200000 "GMT+00:00".data =
      .ok ⟨2024, 1, 1, 20, 0, 0⟩ :=
  ⟨rfl, rfl, rfl, rfl, rfl⟩

/-- C4 (amended): the calendar date the filter compares against the bounds
is the date of `parse_jiffy_timestamp` applied to the entry's own recorded
`start_time_zone` — the output timezone plays no part in the decision. -/
theorem date_filter_compares_entry_zone_date (db : Jiffy.TzDb)
    (sd ed : Option Jiffy.PyDate) (e : Jiffy.TimeEntry) :
    Jiffy.jiffyDateKeep db sd ed e =
      (Jiffy.parse_jiffy_timestamp db e.start_time e.start_time_zone).map (fun c =>
        (match sd with | some s => !Jiffy.dateLt c.date s | none => true) &&
        (match ed with | some t => !Jiffy.dateLt t c.date | none => true)) :=
  Jiffy.jiffyDateKeep_eq_map db sd ed e

/-- C7: an ACTIVE entry whose normalized (entry-zone) start date exactly
equals a present from-bound or to-bound is retained — both ends inclusive —
and an absent bound excludes nothing. -/
theorem date_filter_boundary_inclusive (db : Jiffy.TzDb) (e : Jiffy.TimeEntry)
    (os : List Jiffy.Owner) (bs : List Char) (d : Jiffy.PyDate) (c : Jiffy.CivilDT)
    (hact : e.status = some "ACTIVE")
    (hparse : Jiffy.parse_jiffy_timestamp db e.start_time e.start_time_zone = .ok c)
    (hbound : Jiffy.strptimeDate bs = .ok d)
    (hdate : c.date = d) :
    Jiffy.jiffySelect db (some bs) (some bs) ⟨[e], os⟩ = .ok [e] ∧
    Jiffy.jiffySelect db (some bs) none ⟨[e], os⟩ = .ok [e] ∧
    Jiffy.jiffySelect db none (some bs) ⟨[e], os⟩ = .ok [e] ∧
    Jiffy.jiffySelect db none none ⟨[e], os⟩ = .ok [e] := by
  have hkeep : ∀ sd ed : Option Jiffy.PyDate,
      (sd = none ∨ sd = some d) → (ed = none ∨ ed = some d) →
      Jiffy.jiffyDateKeep db sd ed e = .ok true := by
    intro sd ed hsd hed
    rw [Jiffy.jiffyDateKeep_eq_map, hparse]
    rcases hsd with rfl | rfl <;> rcases hed with rfl | rfl <;>
      simp [Except.map, hdate, Jiffy.dateLt_irrefl]
  have hfilter : ([e] : List Jiffy.TimeEntry).filter
      (fun x => x.status == some "ACTIVE") = [e] := by
    simp [List.filter_cons, hact]
  have hsel : ∀ fb tb : Option (List Char),
      Jiffy.jiffyKept db fb tb ⟨[e], os⟩ = .ok [e] →
      Jiffy.jiffySelect db fb tb ⟨[e], os⟩ = .ok [e] := by
    intro fb tb hk
    unfold Jiffy.jiffySelect
    rw [hk]
    rfl
  refine ⟨hsel _ _ ?_, hsel _ _ ?_, hsel _ _ ?_, hsel _ _ ?_⟩
  · unfold Jiffy.jiffyKept
    dsimp only
    simp only [Option.isSome_some, bind, Except.bind, hbound, Except.map, hfilter]
    rw [Jiffy.filterE_singleton_true (hkeep _ _ (Or.inr rfl) (Or.inr rfl))]
    simp
  · unfold Jiffy.jiffyKept
    dsimp only
    simp only [Option.isSome_some, bind, Except.bind, hbound, Except.map, hfilter,
      pure, Except.pure]
    rw [Jiffy.filterE_singleton_true (hkeep _ _ (Or.inr rfl) (Or.inl rfl))]
    simp
  · unfold Jiffy.jiffyKept
    dsimp only
    simp only [Option.isSome_some, bind, Except.bind, hbound, Except.map, hfilter,
      pure, Except.pure]
    rw [Jiffy.filterE_singleton_true (hkeep _ _ (Or.inl rfl) (Or.inr rfl))]
    simp
  · unfold Jiffy.jiffyKept
    dsimp only
    simp only [Option.isSome_none, bind, Except.bind, hfilter, pure, Except.pure]
    simp

/-- C7 witness: entry starting 2024-01-01 20:00 UTC in `GMT+00:00`, bound
2024-01-01 on either or both ends. -/
theorem date_filter_boundary_inclusive_witness :
    Jiffy.jiffySelect Jiffy.emptyDb (some "2024-01-01".data) (some "2024-01-01".data)
      ⟨[⟨"p1", 1704139200000, 1704142800000, "GMT+00:00".data, "GMT+00:00".data,
          none, some "ACTIVE"⟩], []⟩ =
      .ok [⟨"p1", 1704139200000, 1704142800000, "GMT+00:00".data, "GMT+00:00".data,
          none, some "ACTIVE"⟩] ∧
    Jiffy.jiffySelect Jiffy.emptyDb (some "2024-01-01".data) none
      ⟨[⟨"p1", 1704139200000, 1704142800000, "GMT+00:00".data, "GMT+00:00".data,
          none, some "ACTIVE"⟩], []⟩ =
      .ok [⟨"p1", 1704139200000, 1704142800000, "GMT+00:00".data, "GMT+00:00".data,
          none, some "ACTIVE"⟩] ∧
    Jiffy.jiffySelect Jiffy.emptyDb none (some "2024-01-01".data)
      ⟨[⟨"p1", 1704139200000, 1704142800000, "GMT+00:00".data, "GMT+00:00".data,
          none, some "ACTIVE"⟩], []⟩ =
      .ok [⟨"p1", 1704139200000, 1704142800000, "GMT+00:00".data, "GMT+00:00".data,
          none, some "ACTIVE"⟩] ∧
    Jiffy.jiffySelect Jiffy.emptyDb none none
      ⟨[⟨"p1", 1704139200000, 1704142800000, "GMT+00:00".data, "GMT+00:00".data,
          none, some "ACTIVE"⟩], []⟩ =
      .ok [⟨"p1", 1704139200000, 1704142800000, "GMT+00:00".data, "GMT+00:00".data,
          none, some "ACTIVE"⟩] :=
  date_filter_boundary_inclusive Jiffy.emptyDb
    ⟨"p1", 1704139200000, 1704142800000, "GMT+00:00".data, "GMT+00:00".data,
      none, some "ACTIVE"⟩ [] "2024-01-01".data ⟨2024, 1, 1⟩ ⟨2024, 1, 1, 20, 0, 0⟩
    rfl rfl rfl rfl

/-- C5 counterexample: in the Toggl-CSV-to-Clockify converter, a source row
carrying `Billable = "Yes"` is copied through to the output row — the
Billable column is not the fixed constant "No" in that pipeline. -/
theorem billable_not_constant_in_toggl_pipeline :
    TogglExport.convert_to_clockify
      [⟨"1:00:00".data, "2024-01-01".data, "09:00:00".data, some "P", none,
        some "a@b.c", some "Yes"⟩] none none none =
      .ok [⟨"P", "", "", "", "a@b.c", "", "Yes", "01/01/2024", "9:00 AM", "1:00:00"⟩] ∧
    ("Yes" : String) ≠ "No" :=
  ⟨rfl, by decide⟩

/-- C5 (amended): both Jiffy converters write the fixed constant "No" into
every row's Billable column; the Toggl-CSV-to-Clockify converter instead
copies the source row's Billable value, defaulting to "No" only when the
column is absent. -/
theorem billable_no_in_jiffy_passthrough_in_toggl (db : Jiffy.TzDb)
    (data : Jiffy.JiffyData) (email : String) (f t : Option (List Char))
    (otz : List Char) (togglRows : List Jiffy.TogglRow)
    (clockRows : List Jiffy.ClockifyRow)
    (p2c : TogglExport.ProjMap) (e : TogglExport.TogglEntry) (r : Jiffy.ClockifyRow) :
    (Jiffy.convert_to_toggl db data email f t otz = .ok togglRows →
      ∀ r' ∈ togglRows, r'.billable = "No") ∧
    (Jiffy.convert_to_clockify db data email f t otz = .ok clockRows →
      ∀ r' ∈ clockRows, r'.billable = "No") ∧
    (TogglExport.mkClockifyFromToggl p2c e = .ok r →
      r.billable = e.billable.getD "No") := by
  refine ⟨?_, ?_, ?_⟩
  · intro h r' hr'
    unfold Jiffy.convert_to_toggl at h
    simp only [bind, Except.bind] at h
    cases hs : Jiffy.jiffySelect db f t data with
    | error err => rw [hs] at h; exact absurd h (by simp)
    | ok es =>
      rw [hs] at h
      obtain ⟨x, _, hfx⟩ := Jiffy.mapE_ok_mem h r' hr'
      exact Jiffy.mkTogglRow_ok_billable hfx
  · intro h r' hr'
    unfold Jiffy.convert_to_clockify at h
    simp only [bind, Except.bind] at h
    cases hs : Jiffy.jiffySelect db f t data with
    | error err => rw [hs] at h; exact absurd h (by simp)
    | ok es =>
      rw [hs] at h
      obtain ⟨x, _, hfx⟩ := Jiffy.mapE_ok_mem h r' hr'
      exact Jiffy.mkClockifyRow_ok_billable hfx
  · intro h
    unfold TogglExport.mkClockifyFromToggl at h
    simp only [bind, Except.bind] at h
    cases h1 : TogglExport.parse_toggl_duration e.duration with
    | error err => rw [h1] at h; exact absurd h (by simp)
    | ok ds =>
      rw [h1] at h
      cases h2 : Jiffy.strptimeDate e.startDate with
      | error err => rw [h2] at h; exact absurd h (by simp)
      | ok sd =>
        rw [h2] at h
        cases h3 : TogglExport.strptimeTime e.startTime with
        | error err => rw [h3] at h; exact absurd h (by simp)
        | ok st =>
          rw [h3] at h
          simp only [pure, Except.pure, Except.ok.injEq] at h
          rw [← h]

/-- C5 witness: one ACTIVE Jiffy entry through both Jiffy converters (both
rows get Billable "No"), and a Toggl row without a Billable column (the
default "No" applies). -/
theorem billable_no_in_jiffy_passthrough_in_toggl_witness :
    (∀ r' ∈ ([⟨"-", "No", "1:00:00", "a@b.c", "Unknown", "2024-01-01", "17:00:00"⟩] :
        List Jiffy.TogglRow), r'.billable = "No") ∧
    (∀ r' ∈ ([⟨"Unknown", "", "", "", "a@b.c", "", "No", "01/01/2024", "5:00 PM",
        "1:00:00"⟩] : List Jiffy.ClockifyRow), r'.billable = "No") ∧
    ((⟨"P", "", "", "", "a@b.c", "", "No", "01/01/2024", "9:00 AM", "1:00:00"⟩ :
        Jiffy.ClockifyRow).billable =
      (Option.getD none "No")) := by
  refine ⟨?_, ?_, ?_⟩
  · exact (billable_no_in_jiffy_passthrough_in_toggl Jiffy.emptyDb
      ⟨[⟨"p1", 1704103200000, 1704106800000, "GMT+07:00".data, "GMT+07:00".data,
          none, some "ACTIVE"⟩], []⟩
      "a@b.c" none none "GMT+07:00".data
      [⟨"-", "No", "1:00:00", "a@b.c", "Unknown", "2024-01-01", "17:00:00"⟩]
      [⟨"Unknown", "", "", "", "a@b.c", "", "No", "01/01/2024", "5:00 PM", "1:00:00"⟩]
      none
      ⟨"1:00:00".data, "2024-01-01".data, "09:00:00".data, some "P", none,
        some "a@b.c", none⟩
      ⟨"P", "", "", "", "a@b.c", "", "No", "01/01/2024", "9:00 AM", "1:00:00"⟩).1 rfl
  · exact (billable_no_in_jiffy_passthrough_in_toggl Jiffy.emptyDb
      ⟨[⟨"p1", 1704103200000, 1704106800000, "GMT+07:00".data, "GMT+07:00".data,
          none, some "ACTIVE"⟩], []⟩
      "a@b.c" none none "GMT+07:00".data
      [⟨"-", "No", "1:00:00", "a@b.c", "Unknown", "2024-01-01", "17:00:00"⟩]
      [⟨"Unknown", "", "", "", "a@b.c", "", "No", "01/01/2024", "5:00 PM", "1:00:00"⟩]
      none
      ⟨"1:00:00".data, "2024-01-01".data, "09:00:00".data, some "P", none,
        some "a@b.c", none⟩
      ⟨"P", "", "", "", "a@b.c", "", "No", "01/01/2024", "9:00 AM", "1:00:00"⟩).2.1 rfl
  · exact (billable_no_in_jiffy_passthrough_in_toggl Jiffy.emptyDb
      ⟨[⟨"p1", 1704103200000, 1704106800000, "GMT+07:00".data, "GMT+07:00".data,
          none, some "ACTIVE"⟩], []⟩
      "a@b.c" none none "GMT+07:00".data
      [⟨"-", "No", "1:00:00", "a@b.c", "Unknown", "2024-01-01", "17:00:00"⟩]
      [⟨"Unknown", "", "", "", "a@b.c", "", "No", "01/01/2024", "5:00 PM", "1:00:00"⟩]
      none
      ⟨"1:00:00".data, "2024-01-01".data, "09:00:00".data, some "P", none,
        some "a@b.c", none⟩
      ⟨"P", "", "", "", "a@b.c", "", "No", "01/01/2024", "9:00 AM", "1:00:00"⟩).2.2 rfl

/-- C2 counterexample: the Toggl-CSV-to-Clockify converter writes rows in
input order without any sort: given the later-starting entry first, the
output keeps it first, so the emitted rows are not in ascending start
order. -/
theorem toggl_pipeline_emits_unsorted_rows :
    TogglExport.convert_to_clockify
      [⟨"1:00:00".data, "2024-01-02".data, "10:00:00".data, some "P", none,
        some "a@b.c", none⟩,
       ⟨"0:30:00".data, "2024-01-01".data, "09:00:00".data, some "P", none,
        some "a@b.c", none⟩] none none none =
      .ok [⟨"P", "", "", "", "a@b.c", "", "No", "01/02/2024", "10:00 AM", "1:00:00"⟩,
           ⟨"P", "", "", "", "a@b.c", "", "No", "01/01/2024", "9:00 AM", "0:30:00"⟩] ∧
    Jiffy.strptimeDate "2024-01-02".data = .ok ⟨2024, 1, 2⟩ ∧
    Jiffy.strptimeDate "2024-01-01".data = .ok ⟨2024, 1, 1⟩ ∧
    Jiffy.dateLt ⟨2024, 1, 1⟩ ⟨2024, 1, 2⟩ = true :=
  ⟨rfl, rfl, rfl, by decide⟩

/-- C2 (amended): the two Jiffy converters do sort the kept entries
ascending by raw `start_time` before writing (`jiffySelect` is the entry
sequence both write from); the Toggl-CSV-to-Clockify converter performs no
sort and preserves the input order of the rows it keeps. -/
theorem sort_in_jiffy_pipeline_only (db : Jiffy.TzDb)
    (f t : Option (List Char)) (data : Jiffy.JiffyData)
    (es : List Jiffy.TimeEntry)
    (entries kept : List TogglExport.TogglEntry) (f2 t2 : Option (List Char))
    (h1 : Jiffy.jiffySelect db f t data = .ok es)
    (h2 : TogglExport.togglKept f2 t2 entries = .ok kept) :
    es.Pairwise (fun a b => a.start_time ≤ b.start_time) ∧
    kept.Sublist entries := by
  obtain ⟨k, _, rfl⟩ := Jiffy.jiffySelect_ok h1
  exact ⟨Jiffy.sorted_sortByStart k, TogglExport.togglKept_sublist h2⟩

/-- C2 amended witness. -/
theorem sort_in_jiffy_pipeline_only_witness :
    (Jiffy.sortByStart
      [⟨"b", 5000, 6000, "UTC".data, "UTC".data, none, some "ACTIVE"⟩,
       ⟨"p", 1000, 2000, "UTC".data, "UTC".data, none, some "ACTIVE"⟩]).Pairwise
      (fun a b => a.start_time ≤ b.start_time) ∧
    ([⟨"1:00:00".data, "2024-01-02".data, "10:00:00".data, some "P", none,
        some "a@b.c", none⟩] : List TogglExport.TogglEntry).Sublist
      [⟨"1:00:00".data, "2024-01-02".data, "10:00:00".data, some "P", none,
        some "a@b.c", none⟩] :=
  sort_in_jiffy_pipeline_only Jiffy.emptyDb none none
    ⟨[⟨"b", 5000, 6000, "UTC".data, "UTC".data, none, some "ACTIVE"⟩,
      ⟨"p", 1000, 2000, "UTC".data, "UTC".data, none, some "ACTIVE"⟩], []⟩
    (Jiffy.sortByStart
      [⟨"b", 5000, 6000, "UTC".data, "UTC".data, none, some "ACTIVE"⟩,
       ⟨"p", 1000, 2000, "UTC".data, "UTC".data, none, some "ACTIVE"⟩])
    [⟨"1:00:00".data, "2024-01-02".data, "10:00:00".data, some "P", none,
        some "a@b.c", none⟩]
    [⟨"1:00:00".data, "2024-01-02".data, "10:00:00".data, some "P", none,
        some "a@b.c", none⟩]
    none none rfl rfl

/-- C1: on the spec's end-to-end scenario (owners ClientX ← ProjectY, one
ACTIVE one-hour entry) the Clockify converter emits exactly one row with
Project "ProjectY" and Client "ClientX", but its `Duration (h)` column
holds `format_duration`'s `HH:MM:SS` rendering "1:00:00", not the decimal
hours "1.00" that `format_duration_hours` — written for Clockify per its
docstring but never called — would produce. -/
theorem clockify_duration_h_written_as_hms :
    Jiffy.convert_to_clockify Jiffy.emptyDb
      ⟨[⟨"p1", 1704103200000, 1704106800000, "GMT+07:00".data, "GMT+07:00".data,
          none, some "ACTIVE"⟩],
       [⟨"c1", some "ClientX", none⟩, ⟨"p1", some "ProjectY", some "c1"⟩]⟩
      "user@example.com" none none "GMT+07:00".data =
      .ok [⟨"ProjectY", "ClientX", "", "", "user@example.com", "", "No",
            "01/01/2024", "5:00 PM", "1:00:00"⟩] ∧
    Jiffy.format_duration_hours 1704103200000 1704106800000 = "1.00" ∧
    Jiffy.format_duration 1704103200000 1704106800000 = "1:00:00" ∧
    ("1:00:00" : String) ≠ "1.00" :=
  ⟨rfl, rfl, rfl, by decide⟩
